import Mathlib

/-!
Shallow embedding of `src/src/bencher.rs` of the `bench-rs` crate.

Machine integers (`u128` for times, `usize` for counts and memory) are
modelled as `Nat`: every quantity involved is a duration in nanoseconds,
a repetition count, or a byte count, all nonnegative, and no claim is
about wrap-around behaviour.  Rust's `/` on unsigned integers is
truncating division on nonnegative values, i.e. `Nat.div`.

The process-wide allocation-tracker atomics `mem_track.0` (current
allocated) and `mem_track.1` (peak allocated) are modelled as two fields
of an explicit `World` state that every operation threads; per §5 of the
spec the harness is single-threaded, so the `SeqCst` atomic accesses are
plain reads and writes of that state.  The wall clock (`Instant::now` /
`elapsed`) is modelled as a `clock` field of the same `World`, advanced
by the user operation.

The user-supplied closure `f` is an oracle: each call may depend on how
many calls happened before (the `calls` counter of the `World`) and on
the current allocation counters (a real closure can read the tracker's
atomics), and it yields new counters and a duration; for the async path
it additionally yields the poll count reported by the `TimingFuture`
wrapper.
-/

namespace BenchRs

/-- The two allocation-tracker counters: current allocated bytes and
peak allocated bytes (`mem_track.0` and `mem_track.1` in the source). -/
structure MemTrack where
  counter : Nat
  peak : Nat
  deriving DecidableEq, Repr

/-- The ambient state threaded through a benchmark run: how many times
the user operation has been called, the wall clock in nanoseconds, and
the allocation-tracker counters. -/
structure World where
  calls : Nat
  clock : Nat
  mem : MemTrack
  deriving DecidableEq, Repr

/-- `Step` from the crate root: one recorded sample, `time` in
nanoseconds per iteration (`u128`) and `mem` in bytes per iteration
(`usize`). -/
structure Step where
  time : Nat
  mem : Nat
  deriving DecidableEq, Repr

/-- The `Bencher` struct of `bencher.rs`, minus the two fields that are
not plain data: `mem_track` (the two static atomics, modelled by the
`World`) and `format_fn` (a function pointer, passed explicitly to
`finishWith` because a `Bencher`-consuming function stored inside
`Bencher` would be a negative occurrence). -/
structure Bencher where
  name : String
  count : Nat
  steps : List Step
  bytes : Nat
  n : Nat
  poll : Nat
  deriving DecidableEq, Repr

/-- `Bencher::new`: `steps` starts empty (`Vec::with_capacity(count)`),
`n` and `poll` start at 0. -/
def Bencher.new (name : String) (count : Nat) (bytes : Nat) : Bencher :=
  { name := name, count := count, steps := [], bytes := bytes, n := 0, poll := 0 }

/-- `Bencher::reset_mem`: store 0 into both tracker atomics. -/
def reset_mem (w : World) : World :=
  { w with mem := { counter := 0, peak := 0 } }

/-- `Bencher::get_mem_peak`: load the peak-allocated atomic. -/
def get_mem_peak (w : World) : Nat :=
  w.mem.peak

/-- Result of one call of a synchronous user operation: the new
allocation counters and the call's duration in nanoseconds. -/
structure OpRes where
  mem : MemTrack
  dur : Nat

/-- Oracle for a synchronous user operation `f`: behaviour of the k-th
call, given the current allocation counters. -/
structure Op where
  step : Nat → MemTrack → OpRes

/-- Run the operation once: bump the call counter, advance the clock by
the call's duration, update the allocation counters. -/
def Op.call (op : Op) (w : World) : World :=
  let r := op.step w.calls w.mem
  { calls := w.calls + 1, clock := w.clock + r.dur, mem := r.mem }

/-- The `for _ in 0..n { let _output = f(); }` loop of `bench_once`. -/
def runCalls (op : Op) : Nat → World → World
  | 0, w => w
  | k + 1, w => runCalls op k (op.call w)

/-- `Bencher::bench_once`: start the timer, reset the memory window, run
`f` `n` times back-to-back, return `(elapsed_nanos, peak_memory)` —
the elapsed time reading and the post-batch peak reading. -/
def bench_once (op : Op) (n : Nat) (w : World) : (Nat × Nat) × World :=
  let now := w.clock
  let w1 := reset_mem w
  let w2 := runCalls op n w1
  ((w2.clock - now, get_mem_peak w2), w2)

/-- The `(0..self.count).for_each` sampling loop of `Bencher::iter`:
each round runs one batch of `n` calls through `bench_once` and pushes
`Step { time: res.0 / n, mem: res.1 / n }`. -/
def sampleSteps (op : Op) (n : Nat) : Nat → World → List Step × World
  | 0, w => ([], w)
  | c + 1, w =>
    let r := bench_once op n w
    let rest := sampleSteps op n c r.2
    ({ time := r.1.1 / n, mem := r.1.2 / n } :: rest.1, rest.2)

/-- `Bencher::iter`: calibrate with one call (`bench_once(&mut f, 1).0`),
set `n = (1_000_000 / single.max(1)).max(1)` (the `as usize` cast is
lossless since the value is at most 1 000 000), then run `count`
sampling batches, appending each `Step` to `steps`. -/
def iter (b : Bencher) (op : Op) (w : World) : Bencher × World :=
  let cal := bench_once op 1 w
  let single := cal.1.1
  let n := (1000000 / Nat.max single 1).max 1
  let s := sampleSteps op n b.count cal.2
  ({ b with n := n, steps := b.steps ++ s.1 }, s.2)

/-- Result of awaiting one wrapped asynchronous operation
`TimingFuture::new(f()).await`: new allocation counters, the wrapper's
`elapsed_time` in nanoseconds, and its `poll` (resumption) count. -/
structure AsyncRes where
  mem : MemTrack
  dur : Nat
  poll : Nat

/-- Oracle for an asynchronous user operation together with the
`TimingFuture` wrapper.  Modelled from the spec: `TimingFuture`
(`src/timing_future.rs`, not under `src/`) wraps one future instance
and, once the instance completes, exposes `elapsed_time` (wall time
from first resumption to completion) and `poll` (the number of
resumption attempts).  The oracle gives, for the k-th awaited instance
and the current allocation counters, the counters after the instance
completes and the wrapper's two observations. -/
structure AsyncOp where
  step : Nat → MemTrack → AsyncRes

/-- Await one wrapped instance: returns `(elapsed_time, poll)` and the
world after the instance completes. -/
def AsyncOp.call (op : AsyncOp) (w : World) : (Nat × Nat) × World :=
  let r := op.step w.calls w.mem
  ((r.dur, r.poll), { calls := w.calls + 1, clock := w.clock + r.dur, mem := r.mem })

/-- The inner `for _ in 0..self.n` loop of one async sampling batch:
await `n` wrapped instances sequentially, summing `mtime += elapsed`
and pushing each `poll` reading. -/
def asyncInner (op : AsyncOp) : Nat → World → (Nat × List Nat) × World
  | 0, w => ((0, []), w)
  | k + 1, w =>
    let c := op.call w
    let rest := asyncInner op k c.2
    ((c.1.1 + rest.1.1, c.1.2 :: rest.1.2), rest.2)

/-- The outer `for _ in 0..self.count` loop of `async_iter`: each batch
resets the memory window, awaits `n` instances, then pushes
`Step { time: mtime / n, mem: get_mem_peak() / n }`; the per-instance
poll readings of all batches accumulate into one flat list. -/
def asyncBatches (op : AsyncOp) (n : Nat) : Nat → World → (List Step × List Nat) × World
  | 0, w => (([], []), w)
  | c + 1, w =>
    let w1 := reset_mem w
    let inner := asyncInner op n w1
    let st : Step := { time := inner.1.1 / n, mem := get_mem_peak inner.2 / n }
    let rest := asyncBatches op n c inner.2
    ((st :: rest.1.1, inner.1.2 ++ rest.1.2), rest.2)

/-- Everything `async_iter` does after the calibration await, given the
observed calibration duration `single` and the post-calibration world:
set `n = (1_000_000 / single.max(1)).max(1)`, run the batches, append
the new steps, and set `poll = polls.sum() / polls.len()`.  (When
`polls` is empty — only possible with `count = 0` — Rust would panic on
the division; `Nat` division yields 0.  Claim-relevant runs have
`count ≥ 1`.) -/
def asyncAfterCalib (b : Bencher) (op : AsyncOp) (single : Nat) (w1 : World) :
    Bencher × World :=
  let n := (1000000 / Nat.max single 1).max 1
  let r := asyncBatches op n b.count w1
  let polls := r.1.2
  ({ b with n := n, steps := b.steps ++ r.1.1, poll := polls.sum / polls.length }, r.2)

/-- `Bencher::async_iter`: calibrate with one fully awaited wrapped
instance — note that, unlike the synchronous path's `bench_once`, no
`reset_mem` precedes the calibration await — then sample. -/
def async_iter (b : Bencher) (op : AsyncOp) (w : World) : Bencher × World :=
  asyncAfterCalib b op (AsyncOp.call op w).1.1 (AsyncOp.call op w).2

/-- The asynchronous path as §4.3 of the spec words it ("calibration and
sampling mirror §4.1"): the calibration instance, like the synchronous
calibration in `bench_once`, runs inside a memory-reset window.  This
definition follows the spec's words, to be compared with `async_iter`,
which follows the source. -/
def async_iter_specCalib (b : Bencher) (op : AsyncOp) (w : World) : Bencher × World :=
  asyncAfterCalib b op (AsyncOp.call op (reset_mem w)).1.1 (AsyncOp.call op (reset_mem w)).2

/-- `Stats` from the crate root, with the six fields `default_format`
reads. -/
structure Stats where
  times_average : Nat
  times_min : Nat
  times_max : Nat
  mem_average : Nat
  mem_min : Nat
  mem_max : Nat
  deriving DecidableEq, Repr

/-- Minimum of a list of naturals (0 on the empty list, on which the
spec leaves the aggregator undefined). -/
def listMin : List Nat → Nat
  | [] => 0
  | x :: xs => xs.foldl Nat.min x

/-- Maximum of a list of naturals (0 on the empty list). -/
def listMax : List Nat → Nat
  | [] => 0
  | x :: xs => xs.foldl Nat.max x

/-- Modelled from the spec: `Stats::from` (crate root, not under
`src/`) — "Average is the arithmetic mean of the respective field
across all Samples (integer division …); min/max are taken
independently per field."  (`from` is a Lean keyword, hence the name
`fromSteps`.) -/
def Stats.fromSteps (steps : List Step) : Stats :=
  { times_average := (steps.map Step.time).sum / steps.length
    times_min := listMin (steps.map Step.time)
    times_max := listMax (steps.map Step.time)
    mem_average := (steps.map Step.mem).sum / steps.length
    mem_min := listMin (steps.map Step.mem)
    mem_max := listMax (steps.map Step.mem) }

/-- The values `Bencher::default_format` interpolates into its report
template, one field per `bunt::println!` argument in source order.
Number rendering (`fmt_thousands_sep`, crate root, not under `src/`)
and the `f64` MB/s figure are display details external to `src/`; the
report records the integer values handed to them (`throughput_bytes`
and `times_average` are the two inputs of the MB/s computation).
`pollLine` is the final argument: the extra average-poll line when
`poll > 0`, the empty string otherwise. -/
structure Report where
  name : String
  times_average : Nat
  times_spread : Nat
  throughput_bytes : Nat
  mem_average : Nat
  mem_spread : Nat
  count : Nat
  n : Nat
  pollLine : String
  deriving DecidableEq, Repr

/-- `Bencher::default_format`: the argument list of the report line,
with the spreads `times_max - times_min` and `mem_max - mem_min`, and
the conditional poll line `if bencher.poll > 0 { "@avg … polls" } else { "" }`. -/
def default_format (stats : Stats) (b : Bencher) : Report :=
  { name := b.name
    times_average := stats.times_average
    times_spread := stats.times_max - stats.times_min
    throughput_bytes := b.bytes
    mem_average := stats.mem_average
    mem_spread := stats.mem_max - stats.mem_min
    count := b.count
    n := b.n
    pollLine :=
      if 0 < b.poll then "\n\t @avg " ++ toString b.poll ++ " polls " else "" }

/-- `Bencher::finish` with an explicit `format_fn` (the `format_fn`
field of the Rust struct): compute `Stats::from(&self.steps)` and hand
`(stats, self)` to the formatter.  `finish` takes `&self` and the
formatter takes two shared references, so the only mutable state the
call could touch is the `World`; the state-passing translation makes
both the harness and the world outputs explicit. -/
def finishWith (fmt : Stats → Bencher → Report) (b : Bencher) (w : World) :
    Report × Bencher × World :=
  (fmt (Stats.fromSteps b.steps) b, b, w)

/-- `Bencher::finish` with the default formatter installed by
`Bencher::new`. -/
def finish (b : Bencher) (w : World) : Report × Bencher × World :=
  finishWith default_format b w

/-- The calibrated repetition count of the synchronous path, as a
function of the oracle and the starting world. -/
def calibN (op : Op) (w : World) : Nat :=
  (1000000 / Nat.max (bench_once op 1 w).1.1 1).max 1

/-- The world after the synchronous calibration run. -/
def calibWorld (op : Op) (w : World) : World :=
  (bench_once op 1 w).2

/-- One sampling batch's world transition. -/
def batchStep (op : Op) (n : Nat) (w : World) : World :=
  (bench_once op n w).2

/-- The world at the start of the k-th sampling batch (batches counted
from 0), starting from world `w`. -/
def batchW (op : Op) (n : Nat) (w : World) (k : Nat) : World :=
  (batchStep op n)^[k] w

/-- The `Step` recorded by the k-th sampling batch: the batch's elapsed
time and post-batch peak reading, each divided by `n`. -/
def sampleAt (op : Op) (n : Nat) (w : World) (k : Nat) : Step :=
  { time := (bench_once op n (batchW op n w k)).1.1 / n
    mem := (bench_once op n (batchW op n w k)).1.2 / n }

/-- The calibrated repetition count of the asynchronous path. -/
def asyncCalibN (op : AsyncOp) (w : World) : Nat :=
  (1000000 / Nat.max (AsyncOp.call op w).1.1 1).max 1

/-- The world after the asynchronous calibration await. -/
def asyncCalibWorld (op : AsyncOp) (w : World) : World :=
  (AsyncOp.call op w).2

/-- The steps an `async_iter` run with `c` batches appends. -/
def asyncSamples (op : AsyncOp) (c : Nat) (w : World) : List Step :=
  (asyncBatches op (asyncCalibN op w) c (asyncCalibWorld op w)).1.1

/-- The flat list of per-instance poll readings an `async_iter` run
with `c` batches collects (calibration excluded). -/
def asyncPolls (op : AsyncOp) (c : Nat) (w : World) : List Nat :=
  (asyncBatches op (asyncCalibN op w) c (asyncCalibWorld op w)).1.2

/-- The world after an `async_iter` run with `c` batches. -/
def asyncWorld (op : AsyncOp) (c : Nat) (w : World) : World :=
  (asyncBatches op (asyncCalibN op w) c (asyncCalibWorld op w)).2

/-- The steps an `iter` run with `c` batches appends. -/
def iterSamples (op : Op) (c : Nat) (w : World) : List Step :=
  (sampleSteps op (calibN op w) c (calibWorld op w)).1

/-- The world after an `iter` run with `c` batches. -/
def iterWorld (op : Op) (c : Nat) (w : World) : World :=
  (sampleSteps op (calibN op w) c (calibWorld op w)).2

/-! ### Concrete instances used by witnesses and counterexamples -/

/-- A synchronous operation that leaves the counters alone and takes
exactly 1 000 000 ns per call, so calibration yields `n = 1`. -/
def exOp : Op := ⟨fun _ m => ⟨m, 1000000⟩⟩

/-- An asynchronous operation that zeroes the counters, takes
1 000 000 ns, and is polled twice per instance. -/
def exAOp : AsyncOp := ⟨fun _ _ => ⟨⟨0, 0⟩, 1000000, 2⟩⟩

/-- A starting world: no calls yet, clock 0, counters 0. -/
def exW : World := ⟨0, 0, ⟨0, 0⟩⟩

/-- A starting world with stale allocation counters (7 peak bytes left
over from before the run). -/
def staleW : World := ⟨0, 0, ⟨0, 7⟩⟩

/-- A fresh one-sample harness. -/
def exB : Bencher := Bencher.new "bench" 1 0

/-- An asynchronous operation whose calibration duration depends on the
allocation counters it observes: 500 000 ns when the peak counter reads
0, 1 000 000 ns otherwise.  A real future can read the tracker's
atomics, so this is a legitimate operation. -/
def memSensitiveAOp : AsyncOp :=
  ⟨fun _ m => ⟨m, if m.peak = 0 then 500000 else 1000000, 1⟩⟩

/-! ### Helper lemmas -/

theorem iter_fst_n (b : Bencher) (op : Op) (w : World) :
    (iter b op w).1.n = calibN op w := rfl

theorem iter_fst_poll (b : Bencher) (op : Op) (w : World) :
    (iter b op w).1.poll = b.poll := rfl

theorem iter_fst_steps (b : Bencher) (op : Op) (w : World) :
    (iter b op w).1.steps = b.steps ++ iterSamples op b.count w := rfl

theorem iter_fst_count (b : Bencher) (op : Op) (w : World) :
    (iter b op w).1.count = b.count := rfl

theorem iter_snd (b : Bencher) (op : Op) (w : World) :
    (iter b op w).2 = iterWorld op b.count w := rfl

theorem async_iter_fst_n (b : Bencher) (op : AsyncOp) (w : World) :
    (async_iter b op w).1.n = asyncCalibN op w := rfl

theorem async_iter_fst_steps (b : Bencher) (op : AsyncOp) (w : World) :
    (async_iter b op w).1.steps = b.steps ++ asyncSamples op b.count w := rfl

theorem async_iter_fst_poll (b : Bencher) (op : AsyncOp) (w : World) :
    (async_iter b op w).1.poll
      = (asyncPolls op b.count w).sum / (asyncPolls op b.count w).length := rfl

theorem async_iter_fst_count (b : Bencher) (op : AsyncOp) (w : World) :
    (async_iter b op w).1.count = b.count := rfl

theorem async_iter_snd (b : Bencher) (op : AsyncOp) (w : World) :
    (async_iter b op w).2 = asyncWorld op b.count w := rfl

/-! ### C1 -/

/-- C1: in both the synchronous and the asynchronous path, after the
single calibration run with observed duration `single`, the repetition
count stored in the harness equals exactly
`max(1, 1_000_000 / max(single, 1))` (integer division). -/
theorem calibration_count_eq (op : Op) (aop : AsyncOp) (b b' : Bencher)
    (w w' : World) (s s' : Nat)
    (hs : (bench_once op 1 w).1.1 = s)
    (hs' : (AsyncOp.call aop w').1.1 = s') :
    (iter b op w).1.n = Nat.max 1 (1000000 / Nat.max s 1)
      ∧ (async_iter b' aop w').1.n = Nat.max 1 (1000000 / Nat.max s' 1) := by
  subst hs hs'
  exact ⟨Nat.max_comm _ _, Nat.max_comm _ _⟩

/-- Witness for C1 at a concrete operation whose single call lasts
exactly 1 000 000 ns, in which case `n = 1`. -/
theorem calibration_count_eq_witness :
    (bench_once exOp 1 exW).1.1 = 1000000
      ∧ (AsyncOp.call exAOp exW).1.1 = 1000000
      ∧ (iter exB exOp exW).1.n = Nat.max 1 (1000000 / Nat.max 1000000 1)
      ∧ (async_iter exB exAOp exW).1.n = Nat.max 1 (1000000 / Nat.max 1000000 1) :=
  ⟨rfl, rfl,
   (calibration_count_eq exOp exAOp exB exB exW exW 1000000 1000000 rfl rfl).1,
   (calibration_count_eq exOp exAOp exB exB exW exW 1000000 1000000 rfl rfl).2⟩

/-! ### C2 -/

theorem sampleSteps_fst (op : Op) (n : Nat) (c : Nat) (w : World) :
    (sampleSteps op n c w).1 = (List.range c).map (sampleAt op n w) := by
  induction c generalizing w with
  | zero => simp [sampleSteps]
  | succ c ih =>
    rw [List.range_succ_eq_map, List.map_cons, List.map_map]
    have hshift : sampleAt op n w ∘ Nat.succ = sampleAt op n (batchStep op n w) := by
      funext k
      simp [sampleAt, batchW, Function.iterate_succ_apply]
    rw [hshift, ← ih]
    simp [sampleSteps, sampleAt, batchW, batchStep]

/-- C2: for every operation and every `count ≥ 1`, the synchronous path
appends exactly `count` samples in run order — the k-th recorded `Step`
is the k-th batch's elapsed time and post-batch peak reading, each
divided by `n` — and `bench_once` resets the memory window before its
`n` back-to-back calls, its time reading being the clock advance over
the batch and its memory reading the post-batch peak. -/
theorem sync_sampling_spec (b : Bencher) (op : Op) (w : World) (_hc : 1 ≤ b.count) :
    (iter b op w).1.steps
        = b.steps ++ (List.range b.count).map (sampleAt op (calibN op w) (calibWorld op w))
      ∧ (iter b op w).1.steps.length = b.steps.length + b.count
      ∧ (∀ (m : Nat) (u : World),
          (bench_once op m u).2 = runCalls op m (reset_mem u)
            ∧ (bench_once op m u).1.1 = (runCalls op m (reset_mem u)).clock - u.clock
            ∧ (bench_once op m u).1.2 = (runCalls op m (reset_mem u)).mem.peak) := by
  have hsteps : (iter b op w).1.steps
      = b.steps ++ (List.range b.count).map (sampleAt op (calibN op w) (calibWorld op w)) := by
    rw [iter_fst_steps, iterSamples, sampleSteps_fst]
  refine ⟨hsteps, ?_, fun m u => ⟨rfl, rfl, rfl⟩⟩
  rw [hsteps]
  simp

/-- Witness for C2 with a one-sample run of a 1 000 000 ns operation. -/
theorem sync_sampling_spec_witness :
    1 ≤ exB.count ∧ (iter exB exOp exW).1.steps.length = exB.steps.length + exB.count :=
  ⟨by decide, (sync_sampling_spec exB exOp exW (by decide)).2.1⟩

/-! ### C3 and C5 -/

theorem asyncInner_polls_length (op : AsyncOp) (k : Nat) (w : World) :
    ((asyncInner op k w).1.2).length = k := by
  induction k generalizing w with
  | zero => simp [asyncInner]
  | succ k ih => simp [asyncInner, ih]

theorem asyncBatches_polls_length (op : AsyncOp) (n : Nat) (c : Nat) (w : World) :
    ((asyncBatches op n c w).1.2).length = c * n := by
  induction c generalizing w with
  | zero => simp [asyncBatches]
  | succ c ih =>
    simp [asyncBatches, asyncInner_polls_length, ih]
    rw [Nat.succ_mul]
    omega

theorem asyncPolls_length (op : AsyncOp) (c : Nat) (w : World) :
    (asyncPolls op c w).length = c * asyncCalibN op w :=
  asyncBatches_polls_length op (asyncCalibN op w) c (asyncCalibWorld op w)

/-- C3: after the `count` asynchronous batches complete, the stored
average resumption count is the sum of the poll readings of every
sampled instance (calibration excluded, `asyncPolls` being collected
only after the calibration await) divided — in one flat integer
division — by the total number of sampled instances `count * n`. -/
theorem async_poll_average (b : Bencher) (op : AsyncOp) (w : World) (_hc : 1 ≤ b.count) :
    (async_iter b op w).1.poll
        = (asyncPolls op b.count w).sum / (b.count * asyncCalibN op w)
      ∧ (asyncPolls op b.count w).length = b.count * asyncCalibN op w := by
  have hlen := asyncPolls_length op b.count w
  exact ⟨by rw [async_iter_fst_poll, hlen], hlen⟩

/-- Witness for C3: one batch of one 1 000 000 ns instance polled
twice, so the stored average is `2 / 1 = 2`. -/
theorem async_poll_average_witness :
    1 ≤ exB.count
      ∧ (async_iter exB exAOp exW).1.poll
          = (asyncPolls exAOp exB.count exW).sum / (exB.count * asyncCalibN exAOp exW)
      ∧ (async_iter exB exAOp exW).1.poll = 2 :=
  ⟨by decide, (async_poll_average exB exAOp exW (by decide)).1, by decide⟩

/-- C5: under `count ≥ 1` none of the harness's divisions divides by
zero — the calibrated `n` is at least 1 in both paths, and the
asynchronous poll list has length `count * n ≥ 1`. -/
theorem no_division_by_zero (b : Bencher) (op : Op) (aop : AsyncOp) (w v : World)
    (hc : 1 ≤ b.count) :
    1 ≤ (iter b op w).1.n ∧ 1 ≤ (async_iter b aop v).1.n
      ∧ (asyncPolls aop b.count v).length = b.count * asyncCalibN aop v
      ∧ 1 ≤ (asyncPolls aop b.count v).length := by
  refine ⟨Nat.le_max_right _ _, Nat.le_max_right _ _, asyncPolls_length aop b.count v, ?_⟩
  rw [asyncPolls_length aop b.count v]
  exact Nat.mul_pos hc (Nat.le_max_right _ _)

/-- Witness for C5 at the concrete 1 000 000 ns operations. -/
theorem no_division_by_zero_witness :
    1 ≤ exB.count
      ∧ 1 ≤ (iter exB exOp exW).1.n
      ∧ 1 ≤ (async_iter exB exAOp exW).1.n
      ∧ 1 ≤ (asyncPolls exAOp exB.count exW).length :=
  ⟨by decide, (no_division_by_zero exB exOp exAOp exW exW (by decide)).1,
   (no_division_by_zero exB exOp exAOp exW exW (by decide)).2.1,
   (no_division_by_zero exB exOp exAOp exW exW (by decide)).2.2.2⟩

/-! ### C4 -/

theorem foldl_min_le_init (l : List Nat) (a : Nat) : l.foldl Nat.min a ≤ a := by
  induction l generalizing a with
  | nil => exact Nat.le_refl a
  | cons y ys ih => exact (ih (Nat.min a y)).trans (Nat.min_le_left a y)

theorem foldl_min_le_mem (l : List Nat) : ∀ a x, x ∈ l → l.foldl Nat.min a ≤ x := by
  induction l with
  | nil => intro a x hx; cases hx
  | cons y ys ih =>
    intro a x hx
    rcases List.mem_cons.mp hx with h | h
    · subst h
      exact (foldl_min_le_init ys (Nat.min a x)).trans (Nat.min_le_right a x)
    · exact ih (Nat.min a y) x h

theorem foldl_min_mem (l : List Nat) : ∀ a, l.foldl Nat.min a ∈ a :: l := by
  induction l with
  | nil => intro a; exact List.mem_singleton.mpr rfl
  | cons y ys ih =>
    intro a
    rw [List.foldl_cons]
    have h := ih (Nat.min a y)
    rcases List.mem_cons.mp h with h1 | h1
    · rw [h1]
      have h2 : Nat.min a y = a ∨ Nat.min a y = y := by
        rcases Nat.le_total a y with h3 | h3
        · exact Or.inl (Nat.min_eq_left h3)
        · exact Or.inr (Nat.min_eq_right h3)
      rcases h2 with h2 | h2
      · rw [h2]; exact List.mem_cons_self _ _
      · rw [h2]; exact List.mem_cons.mpr (Or.inr (List.mem_cons_self _ _))
    · exact List.mem_cons.mpr (Or.inr (List.mem_cons.mpr (Or.inr h1)))

theorem foldl_max_ge_init (l : List Nat) (a : Nat) : a ≤ l.foldl Nat.max a := by
  induction l generalizing a with
  | nil => exact Nat.le_refl a
  | cons y ys ih => exact (Nat.le_max_left a y).trans (ih (Nat.max a y))

theorem foldl_max_ge_mem (l : List Nat) : ∀ a x, x ∈ l → x ≤ l.foldl Nat.max a := by
  induction l with
  | nil => intro a x hx; cases hx
  | cons y ys ih =>
    intro a x hx
    rcases List.mem_cons.mp hx with h | h
    · subst h
      exact (Nat.le_max_right a x).trans (foldl_max_ge_init ys (Nat.max a x))
    · exact ih (Nat.max a y) x h

theorem foldl_max_mem (l : List Nat) : ∀ a, l.foldl Nat.max a ∈ a :: l := by
  induction l with
  | nil => intro a; exact List.mem_singleton.mpr rfl
  | cons y ys ih =>
    intro a
    rw [List.foldl_cons]
    have h := ih (Nat.max a y)
    rcases List.mem_cons.mp h with h1 | h1
    · rw [h1]
      have h2 : Nat.max a y = a ∨ Nat.max a y = y := by
        rcases Nat.le_total y a with h3 | h3
        · exact Or.inl (Nat.max_eq_left h3)
        · exact Or.inr (Nat.max_eq_right h3)
      rcases h2 with h2 | h2
      · rw [h2]; exact List.mem_cons_self _ _
      · rw [h2]; exact List.mem_cons.mpr (Or.inr (List.mem_cons_self _ _))
    · exact List.mem_cons.mpr (Or.inr (List.mem_cons.mpr (Or.inr h1)))

theorem listMin_le (l : List Nat) (x : Nat) (hx : x ∈ l) : listMin l ≤ x := by
  cases l with
  | nil => cases hx
  | cons y ys =>
    rcases List.mem_cons.mp hx with h | h
    · subst h; exact foldl_min_le_init ys x
    · exact foldl_min_le_mem ys y x h

theorem listMin_mem (l : List Nat) (hl : l ≠ []) : listMin l ∈ l := by
  cases l with
  | nil => exact absurd rfl hl
  | cons y ys => exact foldl_min_mem ys y

theorem listMax_ge (l : List Nat) (x : Nat) (hx : x ∈ l) : x ≤ listMax l := by
  cases l with
  | nil => cases hx
  | cons y ys =>
    rcases List.mem_cons.mp hx with h | h
    · subst h; exact foldl_max_ge_init ys x
    · exact foldl_max_ge_mem ys y x h

theorem listMax_mem (l : List Nat) (hl : l ≠ []) : listMax l ∈ l := by
  cases l with
  | nil => exact absurd rfl hl
  | cons y ys => exact foldl_max_mem ys y

/-- C4: the statistics aggregator is a pure function of the sample
sequence — each average field is the integer-division arithmetic mean
of its field, min/max bound every sample per field independently and,
on a non-empty sequence, are attained — and on
`[{t:10,m:100}, {t:20,m:50}, {t:30,m:75}]` it yields exactly
`(20, 10, 30, 75, 50, 100)`. -/
theorem stats_aggregator_spec :
    (∀ steps : List Step,
        (Stats.fromSteps steps).times_average = (steps.map Step.time).sum / steps.length
          ∧ (Stats.fromSteps steps).mem_average = (steps.map Step.mem).sum / steps.length
          ∧ (∀ s, s ∈ steps →
              (Stats.fromSteps steps).times_min ≤ s.time
                ∧ s.time ≤ (Stats.fromSteps steps).times_max
                ∧ (Stats.fromSteps steps).mem_min ≤ s.mem
                ∧ s.mem ≤ (Stats.fromSteps steps).mem_max)
          ∧ (steps ≠ [] →
              (Stats.fromSteps steps).times_min ∈ steps.map Step.time
                ∧ (Stats.fromSteps steps).times_max ∈ steps.map Step.time
                ∧ (Stats.fromSteps steps).mem_min ∈ steps.map Step.mem
                ∧ (Stats.fromSteps steps).mem_max ∈ steps.map Step.mem))
      ∧ Stats.fromSteps [⟨10, 100⟩, ⟨20, 50⟩, ⟨30, 75⟩] = ⟨20, 10, 30, 75, 50, 100⟩ := by
  refine ⟨fun steps => ⟨rfl, rfl, fun s hs => ?_, fun hne => ?_⟩, by decide⟩
  · refine ⟨listMin_le _ _ ?_, listMax_ge _ _ ?_, listMin_le _ _ ?_, listMax_ge _ _ ?_⟩
      <;> exact List.mem_map_of_mem _ hs
  · have hne' : steps.map Step.time ≠ [] := by simpa using hne
    have hne'' : steps.map Step.mem ≠ [] := by simpa using hne
    exact ⟨listMin_mem _ hne', listMax_mem _ hne', listMin_mem _ hne'', listMax_mem _ hne''⟩

/-- Witness for C4 at the example sequence. -/
theorem stats_aggregator_spec_witness :
    (⟨10, 100⟩ : Step) ∈ ([⟨10, 100⟩, ⟨20, 50⟩, ⟨30, 75⟩] : List Step)
      ∧ ([⟨10, 100⟩, ⟨20, 50⟩, ⟨30, 75⟩] : List Step) ≠ []
      ∧ (Stats.fromSteps [⟨10, 100⟩, ⟨20, 50⟩, ⟨30, 75⟩]).times_min ≤ 10
      ∧ (Stats.fromSteps [⟨10, 100⟩, ⟨20, 50⟩, ⟨30, 75⟩]).times_min
          ∈ ([⟨10, 100⟩, ⟨20, 50⟩, ⟨30, 75⟩] : List Step).map Step.time :=
  ⟨by decide, by decide,
   ((stats_aggregator_spec.1 [⟨10, 100⟩, ⟨20, 50⟩, ⟨30, 75⟩]).2.2.1
      ⟨10, 100⟩ (by decide)).1,
   ((stats_aggregator_spec.1 [⟨10, 100⟩, ⟨20, 50⟩, ⟨30, 75⟩]).2.2.2 (by decide)).1⟩

/-! ### C6 -/

theorem asyncBatches_mem_irrel (op : AsyncOp) (n c : Nat) (hc : 1 ≤ c)
    (w w' : World) (h1 : w.calls = w'.calls) (h2 : w.clock = w'.clock) :
    asyncBatches op n c w = asyncBatches op n c w' := by
  cases c with
  | zero => omega
  | succ c =>
    have hreset : reset_mem w = reset_mem w' := by
      cases w
      cases w'
      simp_all [reset_mem]
    simp [asyncBatches, hreset]

/-- Counterexample to C6: with stale counters (`peak = 7`) and an
operation whose duration depends on the counters it observes, the
source's `async_iter` (no reset before the calibration await) and the
spec's reset-before-calibration version calibrate to different
repetition counts, so the claim as stated is false. -/
theorem async_calib_reset_counterexample :
    async_iter (Bencher.new "x" 1 0) memSensitiveAOp staleW
      ≠ async_iter_specCalib (Bencher.new "x" 1 0) memSensitiveAOp staleW := by
  decide

/-- C6 amended: in the asynchronous path the memory window is NOT reset
before the calibration await — the calibration instance runs on the
incoming counters — and the behaviour coincides with the spec's
reset-before-calibration description exactly when the calibration
instance's duration does not depend on the counter values (given
`count ≥ 1`, the first batch's reset erasing the calibration's memory
effects). -/
theorem async_calib_no_reset (b : Bencher) (op : AsyncOp) (w : World)
    (hd : ∀ m : MemTrack, (op.step w.calls m).dur = (op.step w.calls ⟨0, 0⟩).dur)
    (hc : 1 ≤ b.count) :
    (AsyncOp.call op w).2.mem = (op.step w.calls w.mem).mem
      ∧ async_iter b op w = async_iter_specCalib b op w := by
  refine ⟨rfl, ?_⟩
  have hsingle : (AsyncOp.call op w).1.1 = (AsyncOp.call op (reset_mem w)).1.1 := by
    show (op.step w.calls w.mem).dur = (op.step (reset_mem w).calls (reset_mem w).mem).dur
    exact hd w.mem
  have hclock : (AsyncOp.call op w).2.clock = (AsyncOp.call op (reset_mem w)).2.clock := by
    show w.clock + (op.step w.calls w.mem).dur
        = (reset_mem w).clock + (op.step (reset_mem w).calls (reset_mem w).mem).dur
    rw [hd w.mem]
    rfl
  have hbatch : ∀ n, asyncBatches op n b.count (AsyncOp.call op w).2
      = asyncBatches op n b.count (AsyncOp.call op (reset_mem w)).2 := fun n =>
    asyncBatches_mem_irrel op n b.count hc _ _ rfl hclock
  simp only [async_iter, async_iter_specCalib, asyncAfterCalib, ← hsingle, hbatch]

/-- Witness for C6's amended statement at a counter-insensitive
operation. -/
theorem async_calib_no_reset_witness :
    (∀ m : MemTrack, (exAOp.step exW.calls m).dur = (exAOp.step exW.calls ⟨0, 0⟩).dur)
      ∧ 1 ≤ exB.count
      ∧ async_iter exB exAOp exW = async_iter_specCalib exB exAOp exW :=
  ⟨fun m => rfl, by decide,
   (async_calib_no_reset exB exAOp exW (fun m => rfl) (by decide)).2⟩

/-! ### C10 -/

/-- C10: a second measurement pass on the same harness appends its
samples after the first pass's (no clearing), each pass's samples
computed with its own recalibrated repetition count, while the stored
`n` — and, asynchronously, the stored average poll count — reflect only
the most recent pass (`iter` never touches `poll`). -/
theorem repeated_passes_append (b : Bencher) (op : Op) (aop : AsyncOp) (w v : World) :
    (iter (iter b op w).1 op (iter b op w).2).1.steps
        = b.steps ++ iterSamples op b.count w
            ++ iterSamples op b.count (iterWorld op b.count w)
      ∧ (iter (iter b op w).1 op (iter b op w).2).1.n
          = calibN op (iterWorld op b.count w)
      ∧ (iter (iter b op w).1 op (iter b op w).2).1.poll = b.poll
      ∧ (async_iter (async_iter b aop v).1 aop (async_iter b aop v).2).1.steps
          = b.steps ++ asyncSamples aop b.count v
              ++ asyncSamples aop b.count (asyncWorld aop b.count v)
      ∧ (async_iter (async_iter b aop v).1 aop (async_iter b aop v).2).1.n
          = asyncCalibN aop (asyncWorld aop b.count v)
      ∧ (async_iter (async_iter b aop v).1 aop (async_iter b aop v).2).1.poll
          = (asyncPolls aop b.count (asyncWorld aop b.count v)).sum
              / (asyncPolls aop b.count (asyncWorld aop b.count v)).length :=
  ⟨rfl, rfl, rfl, rfl, rfl, rfl⟩

/-! ### C7 -/

/-- C7: the default report carries the average-poll line exactly when
the stored average resumption count is positive, and a purely
synchronous run on a fresh harness (whose `poll` starts at 0 and is
never touched by `iter`) yields a report with an empty poll line. -/
theorem default_report_poll_line (stats : Stats) (b : Bencher) :
    ((default_format stats b).pollLine ≠ "" ↔ 0 < b.poll)
      ∧ (∀ (name : String) (count bytes : Nat) (op : Op) (w v : World),
          (finish (iter (Bencher.new name count bytes) op w).1 v).1.pollLine = "") := by
  constructor
  · constructor
    · intro hne
      by_contra hp
      have hz : b.poll = 0 := Nat.eq_zero_of_not_pos hp
      exact hne (by simp [default_format, hz])
    · intro hp hc
      have hline := congrArg String.length hc
      simp [default_format, hp, String.length_append] at hline
      exact absurd hline.2 (by decide)
  · intro name count bytes op w v
    rfl

/-! ### C8 -/

/-- C8: `reset_mem` zeroes both the current-allocated and the
peak-allocated counter, and `get_mem_peak` immediately after a reset
reads 0. -/
theorem reset_mem_zeroes (w : World) :
    (reset_mem w).mem.counter = 0 ∧ (reset_mem w).mem.peak = 0
      ∧ get_mem_peak (reset_mem w) = 0 :=
  ⟨rfl, rfl, rfl⟩

/-! ### C9 -/

/-- C9: finalizing — computing `Stats::from(&self.steps)` and invoking
the formatter, default formatter included — leaves the harness (and
the tracked world) unchanged; the report is a pure function of the
statistics and the harness. -/
theorem finish_frame (fmt : Stats → Bencher → Report) (b : Bencher) (w : World) :
    (finishWith fmt b w).2.1 = b ∧ (finishWith fmt b w).2.2 = w
      ∧ (finish b w).2.1 = b ∧ (finish b w).2.2 = w
      ∧ (finish b w).1 = default_format (Stats.fromSteps b.steps) b :=
  ⟨rfl, rfl, rfl, rfl, rfl⟩

end BenchRs
